import Mathlib

set_option maxRecDepth 8000

/-!
Verification development for the `server.js` WebSocket bridge
(Recall meeting-media relay ↔ OpenAI Realtime).

The definitions below are a shallow embedding of `src/server.js`:

* `recallFetch`      — the dual-credential helper (lines 43–63),
* `createBot`        — the `POST /api/recall/create` handler guard (lines 79–111),
* `onUpgrade`        — the HTTP upgrade dispatcher (lines 149–155),
* `wsAgentInit` / `stepEv` — the per-session bridge `wsAgent` (lines 157–233),
  expressed as an initial state plus one transition per transport callback
  (message / open / close / error on either leg, keepalive interval ticks).

Transport contract used for the embedding (the `ws` library is an external
collaborator, not part of the repository): `send` succeeds only on an open
socket and raises otherwise (the raise is what the source's try/catch blocks
observe); `close()` moves a non-closed socket to the closing state; a socket's
`close` event fires at most once and marks it closed; `ping()` on a non-open
socket raises, which the interval callbacks swallow.
-/

/-- WebSocket ready states (CONNECTING / OPEN / CLOSING / CLOSED). -/
inductive ReadyState
  | connecting
  | opened
  | closing
  | closed
deriving DecidableEq, Repr

/-- One WebSocket frame: text (a UTF-8 string) or binary (a byte sequence). -/
inductive Frame
  | text (s : String)
  | bin (bytes : List Nat)
deriving DecidableEq, Repr

/-- One leg of the bridge: its ready state and the ordered frames successfully
sent on it (i.e. delivered to that leg's remote peer). -/
structure Leg where
  state : ReadyState
  sent : List Frame
deriving DecidableEq, Repr

/-- `close()` on a leg: no-op when already closed, else the socket starts the
closing handshake.  Never raises (the source still wraps it in try/catch). -/
def Leg.closeCall (l : Leg) : Leg :=
  if l.state = ReadyState.closed then l else { l with state := ReadyState.closing }

/-- Process-wide configuration (environment-derived, read-only):
`VOICE`, `PERSONA_PROMPT`, `AGENT_NAME`. -/
structure Config where
  voice : String
  personaPrompt : String
  agentName : String
deriving DecidableEq, Repr

/-- The environment defaults from the top of `server.js`. -/
def defaultConfig : Config where
  voice := "verse"
  personaPrompt := "You are Munffett, a concise, helpful investment co-analyst. Speak briefly and clearly."
  agentName := "Munffett"

/-- Lower-case hex digit, as produced by `JSON.stringify` control escapes. -/
def hexDigitChar (n : Nat) : Char :=
  "0123456789abcdef".toList.getD n '0'

/-- `JSON.stringify` escaping of one character of a string value. -/
def jsonEscapeChar (c : Char) : String :=
  if c = '\"' then "\\\""
  else if c = '\\' then "\\\\"
  else if c = '\x08' then "\\b"
  else if c = '\x0c' then "\\f"
  else if c = '\n' then "\\n"
  else if c = '\r' then "\\r"
  else if c = '\t' then "\\t"
  else if c.toNat < 32 then "\\u00" ++ String.mk [hexDigitChar (c.toNat / 16), hexDigitChar (c.toNat % 16)]
  else String.singleton c

/-- `JSON.stringify` of a string value: quoted and escaped. -/
def jsonQuote (s : String) : String :=
  "\"" ++ String.join (s.toList.map jsonEscapeChar) ++ "\""

/-- The standard base64 alphabet. -/
def b64Alphabet : List Char :=
  "ABCDEFGHIJKLMNOPQRSTUVWXYZabcdefghijklmnopqrstuvwxyz0123456789+/".toList

/-- The base64 digit for a 6-bit value. -/
def b64Char (n : Nat) : Char :=
  b64Alphabet.getD n 'A'

/-- `Buffer.prototype.toString("base64")`: standard base64 with padding. -/
def base64Encode : List Nat → String
  | [] => ""
  | [a] =>
      String.mk [b64Char (a / 4), b64Char (a % 4 * 16)] ++ "=="
  | [a, b] =>
      String.mk [b64Char (a / 4), b64Char (a % 4 * 16 + b / 16), b64Char (b % 16 * 4)] ++ "="
  | a :: b :: c :: rest =>
      String.mk [b64Char (a / 4), b64Char (a % 4 * 16 + b / 16), b64Char (b % 16 * 4 + c / 64), b64Char (c % 64)]
        ++ base64Encode rest

/-- The one-time session-configuration message (`sessionUpdate`, lines 187–194):
`JSON.stringify` of the object literal, whose `instructions` field concatenates
the persona prompt, a blank line and the agent display name. -/
def sessionUpdate (cfg : Config) : String :=
  "\x7b\"type\":\"session.update\",\"session\":\x7b\"voice\":" ++ jsonQuote cfg.voice
    ++ ",\"instructions\":" ++ jsonQuote (cfg.personaPrompt ++ "\n\nName: " ++ cfg.agentName)
    ++ "\x7d\x7d"

/-- The audio envelope built for an inbound binary frame (line 212).  Base64
output contains no character that `JSON.stringify` escapes, so the serialized
object is this plain concatenation. -/
def audioAppendEnvelope (bytes : List Nat) : String :=
  "\x7b\"type\":\"input_audio_buffer.append\",\"audio\":\"" ++ base64Encode bytes ++ "\"\x7d"

/-- The log line of the `clientWs.on("message")` catch block (line 216). -/
def clientFwdErr : String := "[WS] client→AI forward error:"

/-- The log line of the `aiWs.on("message")` catch block (line 230). -/
def aiFwdErr : String := "[WS] AI→client forward error:"

/-- The log line of the `clientWs.on("error")` handler (line 181). -/
def clientErrLog : String := "[WS] client error:"

/-- The log line of the `aiWs.on("error")` handler (line 202). -/
def aiErrLog : String := "[WS] AI error:"

/-- The keepalive interval `KA_MS` (line 167). -/
def kaIntervalMs : Nat := 25000

/-- The whole observable state of one `wsAgent` session.  Besides the two legs
and the two interval flags (`true` = interval currently scheduled), it carries
instrumentation that only records which source actions ran: how often the
open handler sent the session-configuration message (`configSends`), how often
the bridge invoked `aiWs.close()` / `clientWs.close()` on the peer
(`aiCloseCalls` / `clientCloseCalls`), how many keepalive pings went out, the
`console.error` log lines, and whether each leg reported an error event. -/
structure Session where
  client : Leg
  ai : Leg
  kaClient : Bool
  kaAi : Bool
  configSends : Nat
  aiCloseCalls : Nat
  clientCloseCalls : Nat
  clientPings : Nat
  aiPings : Nat
  clientErrored : Bool
  aiErrored : Bool
  errLog : List String
deriving DecidableEq, Repr

/-- Session state right after `wsAgent(clientWs)` ran (lines 157–173): the
inbound leg is open (its upgrade handshake finished in `handleUpgrade`), the
outbound leg is still connecting, the client keepalive interval is already
scheduled (line 172) and the AI keepalive is not (`kaAi = null`, line 173). -/
def wsAgentInit : Session where
  client := { state := ReadyState.opened, sent := [] }
  ai := { state := ReadyState.connecting, sent := [] }
  kaClient := true
  kaAi := false
  configSends := 0
  aiCloseCalls := 0
  clientCloseCalls := 0
  clientPings := 0
  aiPings := 0
  clientErrored := false
  aiErrored := false
  errLog := []

/-- The transport callbacks a session can receive: message/close/error on the
inbound (client) leg, open/message/close/error on the outbound (AI) leg, and
the two keepalive interval ticks. -/
inductive Ev
  | clientMsg (f : Frame)
  | clientClose (code : Nat)
  | clientError
  | aiOpen
  | aiMsg (f : Frame)
  | aiClose (code : Nat)
  | aiError
  | tickClient
  | tickAi
deriving DecidableEq, Repr

/-- One transition of the bridge: the body of the corresponding `server.js`
handler.  A `send` succeeds only on an open socket; on any other state the
transport raises and the handler's catch block appends a log line instead. -/
def stepEv (cfg : Config) (s : Session) : Ev → Session
  | Ev.clientMsg (Frame.text str) =>
      -- lines 206–209: forward the text frame unchanged; catch at 215–217
      if s.ai.state = ReadyState.opened then
        { s with ai := { s.ai with sent := s.ai.sent ++ [Frame.text str] } }
      else
        { s with errLog := s.errLog ++ [clientFwdErr] }
  | Ev.clientMsg (Frame.bin bytes) =>
      -- lines 210–213: base64-encode and wrap in the append envelope
      if s.ai.state = ReadyState.opened then
        { s with ai := { s.ai with sent := s.ai.sent ++ [Frame.text (audioAppendEnvelope bytes)] } }
      else
        { s with errLog := s.errLog ++ [clientFwdErr] }
  | Ev.clientClose _code =>
      -- lines 175–180: close the AI leg, clear kaClient, clear kaAi if set
      { s with client := { s.client with state := ReadyState.closed }
               ai := s.ai.closeCall
               kaClient := false
               kaAi := false
               aiCloseCalls := s.aiCloseCalls + 1 }
  | Ev.clientError =>
      -- line 181: log only
      { s with clientErrored := true, errLog := s.errLog ++ [clientErrLog] }
  | Ev.aiOpen =>
      -- lines 183–195: schedule kaAi, then send the session-configuration
      -- message (the socket has just opened, so this send succeeds)
      { s with ai := { s.ai with state := ReadyState.opened
                                 sent := s.ai.sent ++ [Frame.text (sessionUpdate cfg)] }
               kaAi := true
               configSends := s.configSends + 1 }
  | Ev.aiMsg f =>
      -- lines 220–232: forward unchanged, preserving framing; catch at 229–231
      if s.client.state = ReadyState.opened then
        { s with client := { s.client with sent := s.client.sent ++ [f] } }
      else
        { s with errLog := s.errLog ++ [aiFwdErr] }
  | Ev.aiClose _code =>
      -- lines 197–201: close the client leg, clear kaAi (kaClient is NOT cleared here)
      { s with ai := { s.ai with state := ReadyState.closed }
               client := s.client.closeCall
               kaAi := false
               clientCloseCalls := s.clientCloseCalls + 1 }
  | Ev.aiError =>
      -- line 202: log only
      { s with aiErrored := true, errLog := s.errLog ++ [aiErrLog] }
  | Ev.tickClient =>
      -- line 172: ping; a raise (socket not open) is swallowed by the catch
      if s.client.state = ReadyState.opened then { s with clientPings := s.clientPings + 1 } else s
  | Ev.tickAi =>
      -- line 185: ping; a raise (socket not open) is swallowed by the catch
      if s.ai.state = ReadyState.opened then { s with aiPings := s.aiPings + 1 } else s

/-- Run a sequence of transport callbacks from a given session state. -/
def runFrom (cfg : Config) (s : Session) : List Ev → Session
  | [] => s
  | e :: t => runFrom cfg (stepEv cfg s e) t

/-- Run a sequence of transport callbacks from the fresh session state. -/
def run (cfg : Config) (t : List Ev) : Session :=
  runFrom cfg wsAgentInit t

/-- Which callbacks the transport can actually deliver in a given state:
a socket opens only from CONNECTING, emits messages while OPEN or CLOSING
(frames already in flight), emits `close` at most once (never after CLOSED),
and an interval only ticks while it is scheduled. -/
def evEnabled (s : Session) : Ev → Bool
  | Ev.clientMsg _ => decide (s.client.state = ReadyState.opened ∨ s.client.state = ReadyState.closing)
  | Ev.clientClose _ => decide (s.client.state ≠ ReadyState.closed)
  | Ev.clientError => decide (s.client.state ≠ ReadyState.closed)
  | Ev.aiOpen => decide (s.ai.state = ReadyState.connecting)
  | Ev.aiMsg _ => decide (s.ai.state = ReadyState.opened ∨ s.ai.state = ReadyState.closing)
  | Ev.aiClose _ => decide (s.ai.state ≠ ReadyState.closed)
  | Ev.aiError => decide (s.ai.state ≠ ReadyState.closed)
  | Ev.tickClient => s.kaClient
  | Ev.tickAi => s.kaAi

/-- A callback sequence the transport can deliver from a given state. -/
def validFrom (cfg : Config) (s : Session) : List Ev → Bool
  | [] => true
  | e :: t => evEnabled s e && validFrom cfg (stepEv cfg s e) t

/-- A callback sequence the transport can deliver to a fresh session. -/
def validTrace (cfg : Config) (t : List Ev) : Bool :=
  validFrom cfg wsAgentInit t

/-- A trace is quiescent when every initiated close handshake has completed
(no leg is left CLOSING — the `ws` transport always eventually emits the
`close` event, forcibly after its close timeout) and every leg that reported
an `error` event has also emitted its mandatory subsequent `close` event. -/
def quiescent (cfg : Config) (t : List Ev) : Bool :=
  let s := run cfg t
  decide (s.client.state ≠ ReadyState.closing) && decide (s.ai.state ≠ ReadyState.closing)
    && (!s.clientErrored || decide (s.client.state = ReadyState.closed))
    && (!s.aiErrored || decide (s.ai.state = ReadyState.closed))

/-- Recognizer for the outbound leg's open event. -/
def Ev.isAiOpen : Ev → Bool
  | Ev.aiOpen => true
  | _ => false

/-- Recognizer for the inbound leg's close event. -/
def Ev.isClientClose : Ev → Bool
  | Ev.clientClose _ => true
  | _ => false

/-- Recognizer for the outbound leg's close event. -/
def Ev.isAiClose : Ev → Bool
  | Ev.aiClose _ => true
  | _ => false

/-- Recognizer for any close or error event on either leg. -/
def Ev.isCloseOrError : Ev → Bool
  | Ev.clientClose _ => true
  | Ev.aiClose _ => true
  | Ev.clientError => true
  | Ev.aiError => true
  | _ => false

/-- The fixed bridge route (line 150). -/
def bridgeRoute : String := "/ws/agent"

/-- Outcome of the upgrade dispatcher: hand the connection to the bridge, or
destroy the raw socket (no handshake, no bytes written). -/
inductive UpgradeAction
  | accept
  | destroySock
deriving DecidableEq, Repr

/-- JS `String.prototype.startsWith`, spelled out over the character lists. -/
def urlStartsWith (u pre : String) : Bool :=
  pre.toList.isPrefixOf u.toList

/-- The `server.on("upgrade")` handler (lines 149–155): `req.url` may be
absent (`req.url?.` — absent means the optional chain is undefined, hence
falsy, hence destroy). -/
def onUpgrade (url : Option String) : UpgradeAction :=
  match url with
  | some u => if urlStartsWith u bridgeRoute then UpgradeAction.accept else UpgradeAction.destroySock
  | none => UpgradeAction.destroySock

/-- The two credential schemes `recallFetch` tries, in order (lines 45–48). -/
inductive AuthScheme
  | bearer
  | token
deriving DecidableEq, Repr

/-- An HTTP response as the helper observes it: status code and body text. -/
structure Response where
  status : Nat
  body : String
deriving DecidableEq, Repr

/-- JS `res.ok`: status in the 200–299 range. -/
def Response.ok (r : Response) : Bool :=
  decide (200 ≤ r.status) && decide (r.status < 300)

/-- The order in which `recallFetch` tries its credential headers. -/
def recallTries : List AuthScheme := [AuthScheme.bearer, AuthScheme.token]

/-- The loop body of `recallFetch` (lines 49–62): fetch with each header in
turn, break on the first non-401 response, always remember the last response.
Returns the response the source returns plus the list of attempts actually
made (each loop iteration performs exactly one outbound HTTP call). -/
def recallFetchGo (fetch : AuthScheme → Response) :
    List AuthScheme → Option Response → Option Response × List AuthScheme
  | [], last => (last, [])
  | h :: rest, _last =>
      let res := fetch h
      if res.status ≠ 401 then (some res, [h])
      else
        let r := recallFetchGo fetch rest (some res)
        (r.1, h :: r.2)

/-- `recallFetch` (lines 43–63), with the network modelled as a function from
the credential scheme used to the response received. -/
def recallFetch (fetch : AuthScheme → Response) : Option Response × List AuthScheme :=
  recallFetchGo fetch recallTries none

/-- JS `String.prototype.trim`: strip leading and trailing whitespace. -/
def jsTrim (s : String) : String :=
  String.mk (((s.toList.dropWhile Char.isWhitespace).reverse.dropWhile Char.isWhitespace).reverse)

/-- The exact 400 body of the create endpoint (line 82). -/
def missingMeetingUrlBody : String := "\x7b\"error\":\"missing meeting_url\"\x7d"

/-- What the `POST /api/recall/create` handler replies with, plus how many
outbound HTTP calls to the third-party API it made. -/
structure CreateResult where
  status : Nat
  body : String
  recallCalls : Nat
deriving DecidableEq, Repr

/-- The `POST /api/recall/create` handler (lines 79–111), restricted to the
part the request body determines: `meeting_url` missing or falsy becomes `""`
(the `|| ""` default), is trimmed, and an empty result yields the 400 reply
before any outbound call; otherwise `recallFetch` runs and the reply mirrors
its response (non-2xx bodies abbreviated to their error tag). -/
def createBot (fetch : AuthScheme → Response) (meetingUrlField : Option String) : CreateResult :=
  let meetingUrl := jsTrim (meetingUrlField.getD "")
  if meetingUrl = "" then
    { status := 400, body := missingMeetingUrlBody, recallCalls := 0 }
  else
    let r := recallFetch fetch
    match r.1 with
    | some res =>
        if res.ok then { status := 201, body := res.body, recallCalls := r.2.length }
        else { status := res.status, body := "recall_error", recallCalls := r.2.length }
    | none => { status := 500, body := "server_error", recallCalls := r.2.length }

/-- Concrete trace for the C1 witness: two inbound messages arrive before the
outbound leg opens, one more after. -/
def c1Trace : List Ev :=
  [Ev.clientMsg (Frame.text "hello"), Ev.clientMsg (Frame.bin [1]), Ev.aiOpen,
   Ev.clientMsg (Frame.bin [1, 2, 3])]

/-- Concrete trace for the C2 counterexample: the spec's own scenario, binary
payload 01 02 03 inbound before the outbound leg opens. -/
def c2Trace : List Ev :=
  [Ev.clientMsg (Frame.bin [1, 2, 3]), Ev.aiOpen]

/-- Concrete trace for the C3 witness: a full session teardown. -/
def c3Trace : List Ev :=
  [Ev.aiOpen, Ev.clientClose 1000, Ev.aiClose 1005]

/-- Concrete trace for the C7 witness: the outbound leg closes, then another
inbound message triggers a forward attempt on the already-closed leg. -/
def c7Trace : List Ev :=
  [Ev.aiOpen, Ev.aiClose 1006]

/-- Claim C4: a binary inbound payload received while the session is Active
(outbound leg open) makes the outbound leg receive exactly one text frame,
the base64 audio-append envelope; nothing else in the session changes — no
chunk validation, no resampling, and no implicit commit frame. -/
theorem c4_binary_audio_envelope (cfg : Config) (s : Session) (P : List Nat)
    (h : s.ai.state = ReadyState.opened) :
    stepEv cfg s (Ev.clientMsg (Frame.bin P)) =
      { s with ai := { s.ai with sent := s.ai.sent ++ [Frame.text (audioAppendEnvelope P)] } } := by
  simp [stepEv, h]

/-- Witness for C4 at payload 01 02 03 in an opened session: the one frame
sent is the envelope with audio "AQID". -/
theorem c4_binary_audio_envelope_spot :
    stepEv defaultConfig (run defaultConfig [Ev.aiOpen]) (Ev.clientMsg (Frame.bin [1, 2, 3])) =
      { run defaultConfig [Ev.aiOpen] with
          ai := { (run defaultConfig [Ev.aiOpen]).ai with
                    sent := (run defaultConfig [Ev.aiOpen]).ai.sent
                              ++ [Frame.text (audioAppendEnvelope [1, 2, 3])] } }
    ∧ audioAppendEnvelope [1, 2, 3]
        = "\x7b\"type\":\"input_audio_buffer.append\",\"audio\":\"AQID\"\x7d" :=
  ⟨c4_binary_audio_envelope defaultConfig (run defaultConfig [Ev.aiOpen]) [1, 2, 3] (by decide),
   by decide⟩

/-- Counterexample to claim C5: the dispatcher uses a prefix test, not path
equality — the upgrade request for "/ws/agent-evil" is delegated to the
Session Bridge although its path does not equal the fixed bridge route. -/
theorem c5_route_equality_refuted :
    onUpgrade (some "/ws/agent-evil") = UpgradeAction.accept
    ∧ "/ws/agent-evil" ≠ bridgeRoute :=
  ⟨by decide, by decide⟩

/-- Claim C5 as amended: the Connection Acceptor delegates to the Session
Bridge exactly when the request URL is present and starts with the fixed
bridge route "/ws/agent"; in every other case the raw socket is destroyed
without completing any handshake or sending bytes. -/
theorem c5_upgrade_dispatch_by_route_marker (url : Option String) :
    (onUpgrade url = UpgradeAction.accept
      ↔ ∃ u, url = some u ∧ urlStartsWith u bridgeRoute = true)
    ∧ (onUpgrade url = UpgradeAction.accept ∨ onUpgrade url = UpgradeAction.destroySock) := by
  constructor
  · cases url with
    | none => simp [onUpgrade]
    | some u =>
        by_cases h : urlStartsWith u bridgeRoute
        · simp [onUpgrade, h]
        · simp [onUpgrade, h]
  · cases url with
    | none => exact Or.inr rfl
    | some u =>
        by_cases h : urlStartsWith u bridgeRoute
        · exact Or.inl (by simp [onUpgrade, h])
        · exact Or.inr (by simp [onUpgrade, h])

/-- Claim C6: every frame received on the outbound leg while the inbound leg
is open is forwarded to the inbound leg unmodified, with its framing
preserved (text stays text, binary stays binary), and nothing else changes. -/
theorem c6_outbound_passthrough (cfg : Config) (s : Session) (f : Frame)
    (h : s.client.state = ReadyState.opened) :
    stepEv cfg s (Ev.aiMsg f) =
      { s with client := { s.client with sent := s.client.sent ++ [f] } } := by
  simp [stepEv, h]

/-- Witness for C6: a binary upstream frame is delivered to the inbound leg
unchanged and still binary. -/
theorem c6_outbound_passthrough_spot :
    stepEv defaultConfig wsAgentInit (Ev.aiMsg (Frame.bin [7, 8])) =
      { wsAgentInit with
          client := { wsAgentInit.client with sent := wsAgentInit.client.sent ++ [Frame.bin [7, 8]] } } :=
  c6_outbound_passthrough defaultConfig wsAgentInit (Frame.bin [7, 8]) (by decide)

/-- Claim C9: the bot-control wrapper fetches with the Bearer scheme first;
exactly when that response is 401 it retries once with the Token scheme and
returns that second response (the last non-unauthorized response whenever one
exists); a non-401 first response is returned without a second attempt. -/
theorem c9_dual_credential_fallback (fetch : AuthScheme → Response) :
    recallFetch fetch =
      (some (if (fetch AuthScheme.bearer).status = 401
             then fetch AuthScheme.token else fetch AuthScheme.bearer),
       if (fetch AuthScheme.bearer).status = 401
       then [AuthScheme.bearer, AuthScheme.token] else [AuthScheme.bearer]) := by
  by_cases h1 : (fetch AuthScheme.bearer).status = 401
  · by_cases h2 : (fetch AuthScheme.token).status = 401
    · simp [recallFetch, recallTries, recallFetchGo, h1, h2]
    · simp [recallFetch, recallTries, recallFetchGo, h1, h2]
  · simp [recallFetch, recallTries, recallFetchGo, h1]

/-- Claim C10: a create request whose body lacks `meeting_url` or whose
`meeting_url` trims to the empty string gets the 400 reply with the exact
error body, and no outbound HTTP call to the third-party API is made. -/
theorem c10_missing_meeting_url (fetch : AuthScheme → Response) (mu : Option String)
    (h : mu = none ∨ ∃ s, mu = some s ∧ jsTrim s = "") :
    createBot fetch mu = { status := 400, body := missingMeetingUrlBody, recallCalls := 0 } := by
  rcases h with h | ⟨s, rfl, hs⟩
  · subst h; rfl
  · simp [createBot, hs]

/-- Witness for C10 at a whitespace-only `meeting_url`. -/
theorem c10_missing_meeting_url_spot :
    ((some "  " : Option String) = none ∨ ∃ s, (some "  " : Option String) = some s ∧ jsTrim s = "")
    ∧ createBot (fun _ => { status := 500, body := "" }) (some "  ")
        = { status := 400, body := missingMeetingUrlBody, recallCalls := 0 } :=
  ⟨Or.inr ⟨"  ", rfl, by decide⟩,
   c10_missing_meeting_url (fun _ => { status := 500, body := "" }) (some "  ")
     (Or.inr ⟨"  ", rfl, by decide⟩)⟩

/-- Running a concatenated callback sequence runs the pieces in order. -/
theorem runFrom_append (cfg : Config) (a : List Ev) :
    ∀ (b : List Ev) (s : Session), runFrom cfg s (a ++ b) = runFrom cfg (runFrom cfg s a) b := by
  induction a with
  | nil => intro b s; rfl
  | cons e t ih => intro b s; simp [runFrom, ih]

/-- Validity of a concatenated callback sequence splits at the seam. -/
theorem validFrom_append (cfg : Config) (a : List Ev) :
    ∀ (b : List Ev) (s : Session),
      validFrom cfg s (a ++ b) = (validFrom cfg s a && validFrom cfg (runFrom cfg s a) b) := by
  induction a with
  | nil => intro b s; simp [validFrom, runFrom]
  | cons e t ih => intro b s; simp [validFrom, runFrom, ih, Bool.and_assoc]

/-- A property preserved by every transition holds after any run. -/
theorem runFrom_mono (cfg : Config) (P : Session → Prop)
    (hstep : ∀ s e, P s → P (stepEv cfg s e)) :
    ∀ (t : List Ev) (s : Session), P s → P (runFrom cfg s t) := by
  intro t
  induction t with
  | nil => intro s h; exact h
  | cons e t ih => intro s h; exact ih _ (hstep s e h)

/-- A property preserved by every transport-enabled transition holds after any
deliverable run. -/
theorem runFrom_inv (cfg : Config) (P : Session → Prop)
    (hstep : ∀ s e, evEnabled s e = true → P s → P (stepEv cfg s e)) :
    ∀ (t : List Ev) (s : Session), validFrom cfg s t = true → P s → P (runFrom cfg s t) := by
  intro t
  induction t with
  | nil => intro s _ h; exact h
  | cons e t ih =>
      intro s hv h
      rw [validFrom, Bool.and_eq_true] at hv
      exact ih _ hv.2 (hstep s e hv.1 h)

/-- A closed inbound leg stays closed under every transition. -/
theorem step_client_closed (cfg : Config) (s : Session) (e : Ev)
    (h : s.client.state = ReadyState.closed) :
    (stepEv cfg s e).client.state = ReadyState.closed := by
  cases e with
  | clientMsg f => cases f <;> (simp only [stepEv]; split <;> simp [h])
  | clientClose c => simp [stepEv]
  | clientError => simp [stepEv, h]
  | aiOpen => simp [stepEv, h]
  | aiMsg f => simp only [stepEv]; split <;> simp [h]
  | aiClose c => simp [stepEv, Leg.closeCall, h]
  | aiError => simp [stepEv, h]
  | tickClient => simp only [stepEv]; split <;> simp [h]
  | tickAi => simp only [stepEv]; split <;> simp [h]

/-- A closed outbound leg stays closed under every deliverable transition
(the transport only delivers `open` to a CONNECTING socket). -/
theorem step_ai_closed (cfg : Config) (s : Session) (e : Ev)
    (he : evEnabled s e = true) (h : s.ai.state = ReadyState.closed) :
    (stepEv cfg s e).ai.state = ReadyState.closed := by
  cases e with
  | clientMsg f => cases f <;> (simp only [stepEv]; split <;> simp [h])
  | clientClose c => simp [stepEv, Leg.closeCall, h]
  | clientError => simp [stepEv, h]
  | aiOpen =>
      simp only [evEnabled, decide_eq_true_eq] at he
      simp [he] at h
  | aiMsg f => simp only [stepEv]; split <;> simp [h]
  | aiClose c => simp [stepEv]
  | aiError => simp [stepEv, h]
  | tickClient => simp only [stepEv]; split <;> simp [h]
  | tickAi => simp only [stepEv]; split <;> simp [h]

/-- Once the client keepalive interval is cleared, nothing reschedules it. -/
theorem step_kaClient_false (cfg : Config) (s : Session) (e : Ev)
    (h : s.kaClient = false) :
    (stepEv cfg s e).kaClient = false := by
  cases e with
  | clientMsg f => cases f <;> (simp only [stepEv]; split <;> simp [h])
  | clientClose c => simp [stepEv]
  | clientError => simp [stepEv, h]
  | aiOpen => simp [stepEv, h]
  | aiMsg f => simp only [stepEv]; split <;> simp [h]
  | aiClose c => simp [stepEv, h]
  | aiError => simp [stepEv, h]
  | tickClient => simp only [stepEv]; split <;> simp [h]
  | tickAi => simp only [stepEv]; split <;> simp [h]

/-- The client-error flag is monotone. -/
theorem step_clientErrored (cfg : Config) (s : Session) (e : Ev)
    (h : s.clientErrored = true) :
    (stepEv cfg s e).clientErrored = true := by
  cases e with
  | clientMsg f => cases f <;> (simp only [stepEv]; split <;> simp [h])
  | clientClose c => simp [stepEv, h]
  | clientError => simp [stepEv]
  | aiOpen => simp [stepEv, h]
  | aiMsg f => simp only [stepEv]; split <;> simp [h]
  | aiClose c => simp [stepEv, h]
  | aiError => simp [stepEv, h]
  | tickClient => simp only [stepEv]; split <;> simp [h]
  | tickAi => simp only [stepEv]; split <;> simp [h]

/-- The AI-error flag is monotone. -/
theorem step_aiErrored (cfg : Config) (s : Session) (e : Ev)
    (h : s.aiErrored = true) :
    (stepEv cfg s e).aiErrored = true := by
  cases e with
  | clientMsg f => cases f <;> (simp only [stepEv]; split <;> simp [h])
  | clientClose c => simp [stepEv, h]
  | clientError => simp [stepEv, h]
  | aiOpen => simp [stepEv, h]
  | aiMsg f => simp only [stepEv]; split <;> simp [h]
  | aiClose c => simp [stepEv, h]
  | aiError => simp [stepEv]
  | tickClient => simp only [stepEv]; split <;> simp [h]
  | tickAi => simp only [stepEv]; split <;> simp [h]

/-- A client leg that has started closing never reopens. -/
theorem step_client_down (cfg : Config) (s : Session) (e : Ev)
    (h : s.client.state = ReadyState.closing ∨ s.client.state = ReadyState.closed) :
    (stepEv cfg s e).client.state = ReadyState.closing
      ∨ (stepEv cfg s e).client.state = ReadyState.closed := by
  cases e with
  | clientMsg f => cases f <;> (simp only [stepEv]; split <;> simp [h])
  | clientClose c => simp [stepEv]
  | clientError => simp [stepEv, h]
  | aiOpen => simp [stepEv, h]
  | aiMsg f => simp only [stepEv]; split <;> simp [h]
  | aiClose c =>
      rcases h with h | h <;> simp [stepEv, Leg.closeCall, h]
  | aiError => simp [stepEv, h]
  | tickClient => simp only [stepEv]; split <;> simp [h]
  | tickAi => simp only [stepEv]; split <;> simp [h]

/-- After the inbound leg's close handler ran, the teardown it performed is
irreversible: the client keepalive and AI keepalive stay cleared and the AI
leg stays shut down (the transport cannot open a non-connecting socket). -/
theorem step_teardown_client (cfg : Config) (s : Session) (e : Ev)
    (he : evEnabled s e = true)
    (h : s.kaClient = false ∧ s.kaAi = false
        ∧ (s.ai.state = ReadyState.closing ∨ s.ai.state = ReadyState.closed)) :
    (stepEv cfg s e).kaClient = false ∧ (stepEv cfg s e).kaAi = false
      ∧ ((stepEv cfg s e).ai.state = ReadyState.closing
          ∨ (stepEv cfg s e).ai.state = ReadyState.closed) := by
  obtain ⟨h1, h2, h3⟩ := h
  cases e with
  | clientMsg f => cases f <;> (simp only [stepEv]; split <;> exact ⟨h1, h2, h3⟩)
  | clientClose c =>
      refine ⟨rfl, rfl, ?_⟩
      simp only [stepEv, Leg.closeCall]
      split <;> simp [h3]
  | clientError => exact ⟨h1, h2, h3⟩
  | aiOpen =>
      simp only [evEnabled, decide_eq_true_eq] at he
      rcases h3 with h3 | h3 <;> simp [he] at h3
  | aiMsg f => simp only [stepEv]; split <;> exact ⟨h1, h2, h3⟩
  | aiClose c => exact ⟨h1, rfl, Or.inr rfl⟩
  | aiError => exact ⟨h1, h2, h3⟩
  | tickClient => simp only [stepEv]; split <;> exact ⟨h1, h2, h3⟩
  | tickAi => simp only [stepEv]; split <;> exact ⟨h1, h2, h3⟩

/-- After the outbound leg's close handler ran, its teardown is irreversible:
the client leg stays shut down, the AI keepalive stays cleared and the AI leg
stays closed. -/
theorem step_teardown_ai (cfg : Config) (s : Session) (e : Ev)
    (he : evEnabled s e = true)
    (h : (s.client.state = ReadyState.closing ∨ s.client.state = ReadyState.closed)
        ∧ s.kaAi = false ∧ s.ai.state = ReadyState.closed) :
    ((stepEv cfg s e).client.state = ReadyState.closing
        ∨ (stepEv cfg s e).client.state = ReadyState.closed)
      ∧ (stepEv cfg s e).kaAi = false ∧ (stepEv cfg s e).ai.state = ReadyState.closed := by
  obtain ⟨h1, h2, h3⟩ := h
  cases e with
  | clientMsg f => cases f <;> (simp only [stepEv]; split <;> exact ⟨h1, h2, h3⟩)
  | clientClose c =>
      refine ⟨Or.inr rfl, rfl, ?_⟩
      simp [stepEv, Leg.closeCall, h3]
  | clientError => exact ⟨h1, h2, h3⟩
  | aiOpen =>
      simp only [evEnabled, decide_eq_true_eq] at he
      simp [he] at h3
  | aiMsg f =>
      simp only [stepEv]
      split
      · rename_i hcl
        rcases h1 with h1 | h1 <;> simp [h1] at hcl
      · exact ⟨h1, h2, h3⟩
  | aiClose c =>
      refine ⟨?_, rfl, rfl⟩
      simp only [stepEv, Leg.closeCall]
      split <;> simp [h1]
  | aiError => exact ⟨h1, h2, h3⟩
  | tickClient => simp only [stepEv]; split <;> exact ⟨h1, h2, h3⟩
  | tickAi => simp only [stepEv]; split <;> exact ⟨h1, h2, h3⟩

/-- Only the inbound leg's own close event can mark it closed. -/
theorem step_not_clientClose_not_closed (cfg : Config) (s : Session) (e : Ev)
    (hne : Ev.isClientClose e = false) (h : s.client.state ≠ ReadyState.closed) :
    (stepEv cfg s e).client.state ≠ ReadyState.closed := by
  cases e with
  | clientMsg f => cases f <;> (simp only [stepEv]; split <;> simp [h])
  | clientClose c => simp [Ev.isClientClose] at hne
  | clientError => simp [stepEv, h]
  | aiOpen => simp [stepEv, h]
  | aiMsg f => simp only [stepEv]; split <;> simp [h]
  | aiClose c => simp [stepEv, Leg.closeCall, h]
  | aiError => simp [stepEv, h]
  | tickClient => simp only [stepEv]; split <;> simp [h]
  | tickAi => simp only [stepEv]; split <;> simp [h]

/-- Only the outbound leg's own close event can mark it closed. -/
theorem step_not_aiClose_ai_not_closed (cfg : Config) (s : Session) (e : Ev)
    (hne : Ev.isAiClose e = false) (h : s.ai.state ≠ ReadyState.closed) :
    (stepEv cfg s e).ai.state ≠ ReadyState.closed := by
  cases e with
  | clientMsg f => cases f <;> (simp only [stepEv]; split <;> simp [h])
  | clientClose c => simp [stepEv, Leg.closeCall, h]
  | clientError => simp [stepEv, h]
  | aiOpen => simp [stepEv]
  | aiMsg f => simp only [stepEv]; split <;> simp [h]
  | aiClose c => simp [Ev.isAiClose] at hne
  | aiError => simp [stepEv, h]
  | tickClient => simp only [stepEv]; split <;> simp [h]
  | tickAi => simp only [stepEv]; split <;> simp [h]

/-- The outbound leg never returns to CONNECTING. -/
theorem step_ai_not_connecting (cfg : Config) (s : Session) (e : Ev)
    (h : s.ai.state ≠ ReadyState.connecting) :
    (stepEv cfg s e).ai.state ≠ ReadyState.connecting := by
  cases e with
  | clientMsg f => cases f <;> (simp only [stepEv]; split <;> simp [h])
  | clientClose c => simp only [stepEv, Leg.closeCall]; split <;> simp [h]
  | clientError => simp [stepEv, h]
  | aiOpen => simp [stepEv]
  | aiMsg f => simp only [stepEv]; split <;> simp [h]
  | aiClose c => simp [stepEv]
  | aiError => simp [stepEv, h]
  | tickClient => simp only [stepEv]; split <;> simp [h]
  | tickAi => simp only [stepEv]; split <;> simp [h]

/-- Exactly the AI-open handler sends the session-configuration message. -/
theorem step_configSends (cfg : Config) (s : Session) (e : Ev) :
    (stepEv cfg s e).configSends
      = s.configSends + (if Ev.isAiOpen e = true then 1 else 0) := by
  cases e with
  | clientMsg f => cases f <;> (simp only [stepEv, Ev.isAiOpen]; split <;> simp)
  | clientClose c => simp [stepEv, Ev.isAiOpen]
  | clientError => simp [stepEv, Ev.isAiOpen]
  | aiOpen => simp [stepEv, Ev.isAiOpen]
  | aiMsg f => simp only [stepEv, Ev.isAiOpen]; split <;> simp
  | aiClose c => simp [stepEv, Ev.isAiOpen]
  | aiError => simp [stepEv, Ev.isAiOpen]
  | tickClient => simp only [stepEv, Ev.isAiOpen]; split <;> simp
  | tickAi => simp only [stepEv, Ev.isAiOpen]; split <;> simp

/-- Exactly the inbound close handler calls `aiWs.close()`. -/
theorem step_aiCloseCalls (cfg : Config) (s : Session) (e : Ev) :
    (stepEv cfg s e).aiCloseCalls
      = s.aiCloseCalls + (if Ev.isClientClose e = true then 1 else 0) := by
  cases e with
  | clientMsg f => cases f <;> (simp only [stepEv, Ev.isClientClose]; split <;> simp)
  | clientClose c => simp [stepEv, Ev.isClientClose]
  | clientError => simp [stepEv, Ev.isClientClose]
  | aiOpen => simp [stepEv, Ev.isClientClose]
  | aiMsg f => simp only [stepEv, Ev.isClientClose]; split <;> simp
  | aiClose c => simp [stepEv, Ev.isClientClose]
  | aiError => simp [stepEv, Ev.isClientClose]
  | tickClient => simp only [stepEv, Ev.isClientClose]; split <;> simp
  | tickAi => simp only [stepEv, Ev.isClientClose]; split <;> simp

/-- Exactly the outbound close handler calls `clientWs.close()`. -/
theorem step_clientCloseCalls (cfg : Config) (s : Session) (e : Ev) :
    (stepEv cfg s e).clientCloseCalls
      = s.clientCloseCalls + (if Ev.isAiClose e = true then 1 else 0) := by
  cases e with
  | clientMsg f => cases f <;> (simp only [stepEv, Ev.isAiClose]; split <;> simp)
  | clientClose c => simp [stepEv, Ev.isAiClose]
  | clientError => simp [stepEv, Ev.isAiClose]
  | aiOpen => simp [stepEv, Ev.isAiClose]
  | aiMsg f => simp only [stepEv, Ev.isAiClose]; split <;> simp
  | aiClose c => simp [stepEv, Ev.isAiClose]
  | aiError => simp [stepEv, Ev.isAiClose]
  | tickClient => simp only [stepEv, Ev.isAiClose]; split <;> simp
  | tickAi => simp only [stepEv, Ev.isAiClose]; split <;> simp

/-- Only the AI-open handler schedules the AI keepalive interval. -/
theorem step_kaAi_origin (cfg : Config) (s : Session) (e : Ev)
    (h : (stepEv cfg s e).kaAi = true) : s.kaAi = true ∨ e = Ev.aiOpen := by
  cases e with
  | clientMsg f => cases f <;> (simp only [stepEv] at h; left; revert h; split <;> simp)
  | clientClose c => simp [stepEv] at h
  | clientError => exact Or.inl h
  | aiOpen => exact Or.inr rfl
  | aiMsg f => simp only [stepEv] at h; left; revert h; split <;> simp
  | aiClose c => simp [stepEv] at h
  | aiError => exact Or.inl h
  | tickClient => simp only [stepEv] at h; left; revert h; split <;> simp
  | tickAi => simp only [stepEv] at h; left; revert h; split <;> simp

/-- Generic zero-count principle: if property `P` blocks every event matching
`p` from being deliverable and is preserved by deliverable transitions, then a
deliverable run from a `P`-state contains no `p`-event. -/
theorem valid_countP_zero (cfg : Config) (P : Session → Prop) (p : Ev → Bool)
    (hP : ∀ s e, evEnabled s e = true → P s → P (stepEv cfg s e))
    (hblock : ∀ s e, evEnabled s e = true → P s → p e = false) :
    ∀ (t : List Ev) (s : Session), validFrom cfg s t = true → P s → t.countP p = 0 := by
  intro t
  induction t with
  | nil => intro s _ _; rfl
  | cons e t ih =>
      intro s hv h
      rw [validFrom, Bool.and_eq_true] at hv
      rw [List.countP_cons, hblock s e hv.1 h]
      simpa using ih _ hv.2 (hP s e hv.1 h)

/-- Generic once-at-most principle: if every delivered `p`-event establishes a
property that blocks further `p`-events, a deliverable run contains at most
one `p`-event. -/
theorem valid_countP_le_one (cfg : Config) (P : Session → Prop) (p : Ev → Bool)
    (hP : ∀ s e, evEnabled s e = true → P s → P (stepEv cfg s e))
    (hblock : ∀ s e, evEnabled s e = true → P s → p e = false)
    (hset : ∀ s e, evEnabled s e = true → p e = true → P (stepEv cfg s e)) :
    ∀ (t : List Ev) (s : Session), validFrom cfg s t = true → t.countP p ≤ 1 := by
  intro t
  induction t with
  | nil => intro s _; simp
  | cons e t ih =>
      intro s hv
      rw [validFrom, Bool.and_eq_true] at hv
      rw [List.countP_cons]
      cases hb : p e with
      | false => simpa [hb] using ih _ hv.2
      | true =>
          have h0 := valid_countP_zero cfg P p hP hblock t _ hv.2 (hset s e hv.1 hb)
          simp [h0]

/-- The config-send counter counts exactly the AI-open events of the run. -/
theorem configSends_runFrom (cfg : Config) :
    ∀ (t : List Ev) (s : Session),
      (runFrom cfg s t).configSends = s.configSends + t.countP Ev.isAiOpen := by
  intro t
  induction t with
  | nil => intro s; simp [runFrom]
  | cons e t ih =>
      intro s
      rw [runFrom, ih, step_configSends, List.countP_cons]
      cases hb : Ev.isAiOpen e <;> simp [hb] <;> omega

/-- The `aiWs.close()` counter counts exactly the inbound close events. -/
theorem aiCloseCalls_runFrom (cfg : Config) :
    ∀ (t : List Ev) (s : Session),
      (runFrom cfg s t).aiCloseCalls = s.aiCloseCalls + t.countP Ev.isClientClose := by
  intro t
  induction t with
  | nil => intro s; simp [runFrom]
  | cons e t ih =>
      intro s
      rw [runFrom, ih, step_aiCloseCalls, List.countP_cons]
      cases hb : Ev.isClientClose e <;> simp [hb] <;> omega

/-- The `clientWs.close()` counter counts exactly the outbound close events. -/
theorem clientCloseCalls_runFrom (cfg : Config) :
    ∀ (t : List Ev) (s : Session),
      (runFrom cfg s t).clientCloseCalls = s.clientCloseCalls + t.countP Ev.isAiClose := by
  intro t
  induction t with
  | nil => intro s; simp [runFrom]
  | cons e t ih =>
      intro s
      rw [runFrom, ih, step_clientCloseCalls, List.countP_cons]
      cases hb : Ev.isAiClose e <;> simp [hb] <;> omega

/-- A deliverable trace contains at most one inbound close event. -/
theorem countP_clientClose_le_one (cfg : Config) (t : List Ev)
    (hv : validTrace cfg t = true) : t.countP Ev.isClientClose ≤ 1 := by
  refine valid_countP_le_one cfg (fun s => s.client.state = ReadyState.closed)
    Ev.isClientClose (fun s e _ h => step_client_closed cfg s e h) ?_ ?_ t wsAgentInit hv
  · intro s e he h
    cases e <;> simp [Ev.isClientClose]
    simp only [evEnabled, decide_eq_true_eq] at he
    exact absurd h he
  · intro s e he hb
    cases e <;> simp [Ev.isClientClose] at hb
    simp [stepEv]

/-- A deliverable trace contains at most one outbound close event. -/
theorem countP_aiClose_le_one (cfg : Config) (t : List Ev)
    (hv : validTrace cfg t = true) : t.countP Ev.isAiClose ≤ 1 := by
  refine valid_countP_le_one cfg (fun s => s.ai.state = ReadyState.closed)
    Ev.isAiClose (fun s e he h => step_ai_closed cfg s e he h) ?_ ?_ t wsAgentInit hv
  · intro s e he h
    cases e <;> simp [Ev.isAiClose]
    simp only [evEnabled, decide_eq_true_eq] at he
    exact absurd h he
  · intro s e he hb
    cases e <;> simp [Ev.isAiClose] at hb
    simp [stepEv]

/-- A deliverable trace contains at most one outbound open event. -/
theorem countP_aiOpen_le_one (cfg : Config) (t : List Ev)
    (hv : validTrace cfg t = true) : t.countP Ev.isAiOpen ≤ 1 := by
  refine valid_countP_le_one cfg (fun s => s.ai.state ≠ ReadyState.connecting)
    Ev.isAiOpen (fun s e _ h => step_ai_not_connecting cfg s e h) ?_ ?_ t wsAgentInit hv
  · intro s e he h
    cases e <;> simp [Ev.isAiOpen]
    simp only [evEnabled, decide_eq_true_eq] at he
    exact absurd he h
  · intro s e he hb
    cases e <;> simp [Ev.isAiOpen] at hb
    simp [stepEv]

/-- Splitting a run at a known member event, together with the validity of the
surrounding pieces. -/
theorem run_mem_decomp (cfg : Config) {e₀ : Ev} {t : List Ev} (hm : e₀ ∈ t) :
    ∃ s₁ t₂, run cfg t = runFrom cfg (stepEv cfg s₁ e₀) t₂
      ∧ (validTrace cfg t = true →
          evEnabled s₁ e₀ = true ∧ validFrom cfg (stepEv cfg s₁ e₀) t₂ = true) := by
  obtain ⟨t₁, t₂, rfl⟩ := List.append_of_mem hm
  refine ⟨runFrom cfg wsAgentInit t₁, t₂, ?_, ?_⟩
  · rw [run, runFrom_append]; rfl
  · intro hv
    rw [validTrace, validFrom_append, Bool.and_eq_true] at hv
    have hv2 := hv.2
    simp only [validFrom, Bool.and_eq_true] at hv2
    exact hv2

/-- An inbound close event leaves the inbound leg closed for good. -/
theorem mem_clientClose_closed (cfg : Config) {c : Nat} {t : List Ev}
    (hm : Ev.clientClose c ∈ t) : (run cfg t).client.state = ReadyState.closed := by
  obtain ⟨s₁, t₂, heq, _⟩ := run_mem_decomp cfg hm
  rw [heq]
  exact runFrom_mono cfg (fun s => s.client.state = ReadyState.closed)
    (fun s e h => step_client_closed cfg s e h) t₂ _ (by simp [stepEv])

/-- An outbound close event leaves the outbound leg closed for good. -/
theorem mem_aiClose_closed (cfg : Config) {c : Nat} {t : List Ev}
    (hm : Ev.aiClose c ∈ t) (hv : validTrace cfg t = true) :
    (run cfg t).ai.state = ReadyState.closed := by
  obtain ⟨s₁, t₂, heq, hval⟩ := run_mem_decomp cfg hm
  rw [heq]
  exact runFrom_inv cfg (fun s => s.ai.state = ReadyState.closed)
    (fun s e he h => step_ai_closed cfg s e he h) t₂ _ (hval hv).2 (by simp [stepEv])

/-- A client error event leaves the error flag set for good. -/
theorem mem_clientError_flag (cfg : Config) {t : List Ev}
    (hm : Ev.clientError ∈ t) : (run cfg t).clientErrored = true := by
  obtain ⟨s₁, t₂, heq, _⟩ := run_mem_decomp cfg hm
  rw [heq]
  exact runFrom_mono cfg (fun s => s.clientErrored = true)
    (fun s e h => step_clientErrored cfg s e h) t₂ _ (by simp [stepEv])

/-- An AI error event leaves the error flag set for good. -/
theorem mem_aiError_flag (cfg : Config) {t : List Ev}
    (hm : Ev.aiError ∈ t) : (run cfg t).aiErrored = true := by
  obtain ⟨s₁, t₂, heq, _⟩ := run_mem_decomp cfg hm
  rw [heq]
  exact runFrom_mono cfg (fun s => s.aiErrored = true)
    (fun s e h => step_aiErrored cfg s e h) t₂ _ (by simp [stepEv])

/-- The inbound close handler's teardown persists: both keepalive intervals
stay cleared and the outbound leg stays shut down. -/
theorem mem_clientClose_teardown (cfg : Config) {c : Nat} {t : List Ev}
    (hm : Ev.clientClose c ∈ t) (hv : validTrace cfg t = true) :
    (run cfg t).kaClient = false ∧ (run cfg t).kaAi = false
      ∧ ((run cfg t).ai.state = ReadyState.closing
          ∨ (run cfg t).ai.state = ReadyState.closed) := by
  obtain ⟨s₁, t₂, heq, hval⟩ := run_mem_decomp cfg hm
  rw [heq]
  refine runFrom_inv cfg
    (fun s => s.kaClient = false ∧ s.kaAi = false
        ∧ (s.ai.state = ReadyState.closing ∨ s.ai.state = ReadyState.closed))
    (fun s e he h => step_teardown_client cfg s e he h) t₂ _ (hval hv).2 ?_
  refine ⟨rfl, rfl, ?_⟩
  simp only [stepEv, Leg.closeCall]
  split
  · rename_i h; exact Or.inr h
  · exact Or.inl rfl

/-- The outbound close handler's teardown persists: the inbound leg stays
shut down, the AI keepalive stays cleared, the outbound leg stays closed. -/
theorem mem_aiClose_teardown (cfg : Config) {c : Nat} {t : List Ev}
    (hm : Ev.aiClose c ∈ t) (hv : validTrace cfg t = true) :
    ((run cfg t).client.state = ReadyState.closing
        ∨ (run cfg t).client.state = ReadyState.closed)
      ∧ (run cfg t).kaAi = false ∧ (run cfg t).ai.state = ReadyState.closed := by
  obtain ⟨s₁, t₂, heq, hval⟩ := run_mem_decomp cfg hm
  rw [heq]
  refine runFrom_inv cfg
    (fun s => (s.client.state = ReadyState.closing ∨ s.client.state = ReadyState.closed)
        ∧ s.kaAi = false ∧ s.ai.state = ReadyState.closed)
    (fun s e he h => step_teardown_ai cfg s e he h) t₂ _ (hval hv).2 ?_
  refine ⟨?_, rfl, rfl⟩
  simp only [stepEv, Leg.closeCall]
  split
  · rename_i h; exact Or.inr h
  · exact Or.inl rfl

/-- Without an inbound close event, the inbound leg never reaches CLOSED. -/
theorem runFrom_no_clientClose_not_closed (cfg : Config) :
    ∀ (t : List Ev) (s : Session), (∀ c, Ev.clientClose c ∉ t) →
      s.client.state ≠ ReadyState.closed →
      (runFrom cfg s t).client.state ≠ ReadyState.closed := by
  intro t
  induction t with
  | nil => intro s _ h; exact h
  | cons e t ih =>
      intro s hnm h
      by_cases hcc : Ev.isClientClose e = true
      · obtain ⟨c, rfl⟩ : ∃ c, e = Ev.clientClose c := by
          cases e <;> simp_all [Ev.isClientClose]
        exact absurd (List.mem_cons_self _ _) (hnm c)
      · have hne : Ev.isClientClose e = false := by simpa using hcc
        exact ih _ (fun c hc => hnm c (List.mem_cons_of_mem _ hc))
          (step_not_clientClose_not_closed cfg s e hne h)

/-- A closed inbound leg implies its close event occurred. -/
theorem final_client_closed_mem (cfg : Config) (t : List Ev)
    (h : (run cfg t).client.state = ReadyState.closed) : ∃ c, Ev.clientClose c ∈ t := by
  by_contra hn
  push_neg at hn
  exact runFrom_no_clientClose_not_closed cfg t wsAgentInit hn (by decide) h

/-- Without an outbound close event, the outbound leg never reaches CLOSED. -/
theorem runFrom_no_aiClose_not_closed (cfg : Config) :
    ∀ (t : List Ev) (s : Session), (∀ c, Ev.aiClose c ∉ t) →
      s.ai.state ≠ ReadyState.closed →
      (runFrom cfg s t).ai.state ≠ ReadyState.closed := by
  intro t
  induction t with
  | nil => intro s _ h; exact h
  | cons e t ih =>
      intro s hnm h
      by_cases hcc : Ev.isAiClose e = true
      · obtain ⟨c, rfl⟩ : ∃ c, e = Ev.aiClose c := by
          cases e <;> simp_all [Ev.isAiClose]
        exact absurd (List.mem_cons_self _ _) (hnm c)
      · have hne : Ev.isAiClose e = false := by simpa using hcc
        exact ih _ (fun c hc => hnm c (List.mem_cons_of_mem _ hc))
          (step_not_aiClose_ai_not_closed cfg s e hne h)

/-- A closed outbound leg implies its close event occurred. -/
theorem final_ai_closed_mem (cfg : Config) (t : List Ev)
    (h : (run cfg t).ai.state = ReadyState.closed) : ∃ c, Ev.aiClose c ∈ t := by
  by_contra hn
  push_neg at hn
  exact runFrom_no_aiClose_not_closed cfg t wsAgentInit hn (by decide) h

/-- A scheduled AI keepalive traces back to an AI-open event. -/
theorem kaAi_origin (cfg : Config) :
    ∀ (t : List Ev) (s : Session),
      (runFrom cfg s t).kaAi = true → s.kaAi = true ∨ Ev.aiOpen ∈ t := by
  intro t
  induction t with
  | nil => intro s h; exact Or.inl h
  | cons e t ih =>
      intro s h
      rcases ih _ h with h' | h'
      · rcases step_kaAi_origin cfg s e h' with h'' | h''
        · exact Or.inl h''
        · subst h''; exact Or.inr (List.mem_cons_self _ _)
      · exact Or.inr (List.mem_cons_of_mem _ h')

/-- Without the open event nothing can be sent on the outbound leg. -/
theorem step_no_aiOpen_sent (cfg : Config) (s : Session) (e : Ev)
    (hne : e ≠ Ev.aiOpen) (h1 : s.ai.sent = []) (h2 : s.ai.state ≠ ReadyState.opened) :
    (stepEv cfg s e).ai.sent = [] ∧ (stepEv cfg s e).ai.state ≠ ReadyState.opened := by
  cases e with
  | clientMsg f =>
      cases f with
      | text str =>
          simp only [stepEv]
          split
          · rename_i hop; exact absurd hop h2
          · exact ⟨h1, h2⟩
      | bin bytes =>
          simp only [stepEv]
          split
          · rename_i hop; exact absurd hop h2
          · exact ⟨h1, h2⟩
  | clientClose c =>
      simp only [stepEv, Leg.closeCall]
      split
      · exact ⟨h1, h2⟩
      · exact ⟨h1, by simp⟩
  | clientError => exact ⟨h1, h2⟩
  | aiOpen => exact absurd rfl hne
  | aiMsg f => simp only [stepEv]; split <;> exact ⟨h1, h2⟩
  | aiClose c => exact ⟨h1, by simp [stepEv]⟩
  | aiError => exact ⟨h1, h2⟩
  | tickClient => simp only [stepEv]; split <;> exact ⟨h1, h2⟩
  | tickAi => simp only [stepEv]; split <;> exact ⟨h1, h2⟩

/-- A run without the AI-open event sends nothing on the outbound leg. -/
theorem runFrom_no_aiOpen_sent (cfg : Config) :
    ∀ (t : List Ev) (s : Session), Ev.aiOpen ∉ t →
      s.ai.sent = [] → s.ai.state ≠ ReadyState.opened →
      (runFrom cfg s t).ai.sent = [] ∧ (runFrom cfg s t).ai.state ≠ ReadyState.opened := by
  intro t
  induction t with
  | nil => intro s _ h1 h2; exact ⟨h1, h2⟩
  | cons e t ih =>
      intro s hm h1 h2
      have hne : e ≠ Ev.aiOpen := fun h => hm (h ▸ List.mem_cons_self _ _)
      obtain ⟨h1', h2'⟩ := step_no_aiOpen_sent cfg s e hne h1 h2
      exact ih _ (fun hc => hm (List.mem_cons_of_mem _ hc)) h1' h2'

/-- The configuration-first invariant of the outbound sent stream is preserved
by every deliverable transition: nothing is sent while CONNECTING, something
has been sent once OPEN, and whatever has been sent starts with the
session-configuration message. -/
theorem step_invC1 (cfg : Config) (s : Session) (e : Ev) (he : evEnabled s e = true)
    (h : (s.ai.state = ReadyState.connecting → s.ai.sent = [])
        ∧ (s.ai.state = ReadyState.opened → s.ai.sent ≠ [])
        ∧ (s.ai.sent ≠ [] → s.ai.sent.head? = some (Frame.text (sessionUpdate cfg)))) :
    ((stepEv cfg s e).ai.state = ReadyState.connecting → (stepEv cfg s e).ai.sent = [])
      ∧ ((stepEv cfg s e).ai.state = ReadyState.opened → (stepEv cfg s e).ai.sent ≠ [])
      ∧ ((stepEv cfg s e).ai.sent ≠ [] →
          (stepEv cfg s e).ai.sent.head? = some (Frame.text (sessionUpdate cfg))) := by
  obtain ⟨q1, q2, q3⟩ := h
  cases e with
  | clientMsg f =>
      cases f with
      | text str =>
          simp only [stepEv]
          split
          · rename_i hop
            refine ⟨?_, ?_, ?_⟩
            · intro hc; simp [hop] at hc
            · intro _; simp
            · intro _
              have hne := q2 hop
              have hh := q3 hne
              rcases hsent : s.ai.sent with _ | ⟨a, rest⟩
              · exact absurd hsent hne
              · rw [hsent] at hh
                simpa using hh
          · exact ⟨q1, q2, q3⟩
      | bin bytes =>
          simp only [stepEv]
          split
          · rename_i hop
            refine ⟨?_, ?_, ?_⟩
            · intro hc; simp [hop] at hc
            · intro _; simp
            · intro _
              have hne := q2 hop
              have hh := q3 hne
              rcases hsent : s.ai.sent with _ | ⟨a, rest⟩
              · exact absurd hsent hne
              · rw [hsent] at hh
                simpa using hh
          · exact ⟨q1, q2, q3⟩
  | clientClose c =>
      simp only [stepEv, Leg.closeCall]
      split
      · exact ⟨q1, q2, q3⟩
      · refine ⟨?_, ?_, q3⟩ <;> (intro hc; simp at hc)
  | clientError => exact ⟨q1, q2, q3⟩
  | aiOpen =>
      simp only [evEnabled, decide_eq_true_eq] at he
      have hs : s.ai.sent = [] := q1 he
      simp only [stepEv]
      refine ⟨?_, ?_, ?_⟩
      · intro hc; simp at hc
      · intro _; simp
      · intro _
        show (s.ai.sent ++ [Frame.text (sessionUpdate cfg)]).head?
            = some (Frame.text (sessionUpdate cfg))
        rw [hs]
        simp
  | aiMsg f => simp only [stepEv]; split <;> exact ⟨q1, q2, q3⟩
  | aiClose c => refine ⟨?_, ?_, q3⟩ <;> (intro hc; simp [stepEv] at hc)
  | aiError => exact ⟨q1, q2, q3⟩
  | tickClient => simp only [stepEv]; split <;> exact ⟨q1, q2, q3⟩
  | tickAi => simp only [stepEv]; split <;> exact ⟨q1, q2, q3⟩

/-- The configuration-first invariant holds after every deliverable trace. -/
theorem invC1_run (cfg : Config) (t : List Ev) (hv : validTrace cfg t = true) :
    ((run cfg t).ai.state = ReadyState.connecting → (run cfg t).ai.sent = [])
      ∧ ((run cfg t).ai.state = ReadyState.opened → (run cfg t).ai.sent ≠ [])
      ∧ ((run cfg t).ai.sent ≠ [] →
          (run cfg t).ai.sent.head? = some (Frame.text (sessionUpdate cfg))) :=
  runFrom_inv cfg
    (fun s => (s.ai.state = ReadyState.connecting → s.ai.sent = [])
        ∧ (s.ai.state = ReadyState.opened → s.ai.sent ≠ [])
        ∧ (s.ai.sent ≠ [] → s.ai.sent.head? = some (Frame.text (sessionUpdate cfg))))
    (fun s e he h => step_invC1 cfg s e he h) t wsAgentInit hv
    ⟨fun _ => rfl, fun hc => absurd hc (by decide), fun hc => absurd rfl hc⟩

/-- While the outbound leg is still connecting, every inbound message is
dropped with one forward-error log line, and the whole scenario (messages
then the open event) is a deliverable trace. -/
theorem connecting_clientMsgs_dropped (cfg : Config) :
    ∀ (msgs : List Frame) (s : Session),
      s.ai.state = ReadyState.connecting → s.client.state = ReadyState.opened →
      runFrom cfg s (msgs.map Ev.clientMsg)
          = { s with errLog := s.errLog ++ List.replicate msgs.length clientFwdErr }
        ∧ validFrom cfg s (msgs.map Ev.clientMsg ++ [Ev.aiOpen]) = true := by
  intro msgs
  induction msgs with
  | nil =>
      intro s h1 h2
      constructor
      · simp [runFrom]
      · simp [validFrom, evEnabled, h1, h2]
  | cons f rest ih =>
      intro s h1 h2
      have hstep : stepEv cfg s (Ev.clientMsg f)
          = { s with errLog := s.errLog ++ [clientFwdErr] } := by
        cases f with
        | text str => simp [stepEv, h1]
        | bin bytes => simp [stepEv, h1]
      have h1' : (stepEv cfg s (Ev.clientMsg f)).ai.state = ReadyState.connecting := by
        rw [hstep]; exact h1
      have h2' : (stepEv cfg s (Ev.clientMsg f)).client.state = ReadyState.opened := by
        rw [hstep]; exact h2
      obtain ⟨ha, hb⟩ := ih (stepEv cfg s (Ev.clientMsg f)) h1' h2'
      constructor
      · show runFrom cfg (stepEv cfg s (Ev.clientMsg f)) (rest.map Ev.clientMsg) = _
        rw [ha, hstep]
        simp [List.replicate_succ]
      · show validFrom cfg s ((Ev.clientMsg f :: rest.map Ev.clientMsg) ++ [Ev.aiOpen]) = true
        simp only [List.cons_append, validFrom, Bool.and_eq_true]
        exact ⟨by simp [evEnabled, h2], hb⟩

/-- Claim C1: over every deliverable trace, the session-configuration message
(voice plus instructions concatenating the persona prompt and the agent name)
is sent exactly once when the outbound leg opens (never when it does not
open), and it is the first frame ever sent on the outbound leg — even if
inbound messages arrive before the outbound leg reports Open, since sends
before Open fail and deliver nothing. -/
theorem c1_session_config_once_and_first (cfg : Config) (t : List Ev)
    (hv : validTrace cfg t = true) :
    (run cfg t).configSends = (if Ev.aiOpen ∈ t then 1 else 0)
    ∧ ((run cfg t).ai.sent ≠ [] →
        (run cfg t).ai.sent.head? = some (Frame.text (sessionUpdate cfg)))
    ∧ (Ev.aiOpen ∉ t → (run cfg t).ai.sent = []) := by
  have hcnt : (run cfg t).configSends = t.countP Ev.isAiOpen := by
    simpa [run, wsAgentInit] using configSends_runFrom cfg t wsAgentInit
  refine ⟨?_, (invC1_run cfg t hv).2.2, ?_⟩
  · by_cases hm : Ev.aiOpen ∈ t
    · have hle := countP_aiOpen_le_one cfg t hv
      have hpos : 0 < t.countP Ev.isAiOpen := List.countP_pos_iff.mpr ⟨Ev.aiOpen, hm, rfl⟩
      rw [hcnt, if_pos hm]
      omega
    · have h0 : t.countP Ev.isAiOpen = 0 := by
        rw [List.countP_eq_zero]
        intro a ha
        cases a <;> simp [Ev.isAiOpen]
        exact hm ha
      rw [hcnt, if_neg hm, h0]
  · intro hnm
    exact (runFrom_no_aiOpen_sent cfg t wsAgentInit hnm rfl (by decide)).1

/-- Witness for C1: a deliverable trace with two inbound messages before the
open event still sends the configuration message once, as first frame. -/
theorem c1_session_config_once_and_first_spot :
    validTrace defaultConfig c1Trace = true
    ∧ (run defaultConfig c1Trace).configSends = 1
    ∧ (run defaultConfig c1Trace).ai.sent.head?
        = some (Frame.text (sessionUpdate defaultConfig)) := by
  have h := c1_session_config_once_and_first defaultConfig c1Trace (by decide)
  exact ⟨by decide, h.1.trans (by decide), h.2.1 (by decide)⟩

/-- Counterexample to claim C2: in the spec's own scenario (binary 01 02 03
arrives inbound before the outbound leg opens) the bridge has no pending
queue — after the open event the outbound leg carries only the configuration
frame, and no second frame with the base64 "AQID" envelope ever appears. -/
theorem c2_pending_queue_refuted :
    validTrace defaultConfig c2Trace = true
    ∧ (run defaultConfig c2Trace).ai.sent = [Frame.text (sessionUpdate defaultConfig)]
    ∧ ¬ ((run defaultConfig c2Trace).ai.sent.get? 1
          = some (Frame.text (audioAppendEnvelope [1, 2, 3]))) :=
  ⟨by decide, by decide, by decide⟩

/-- Claim C2 as amended: a message arriving while the session is Connecting is
not queued — the forward attempt fails on the still-connecting outbound
socket, the error is caught and logged, and the message is dropped; after the
open event the outbound leg's only frame is the configuration message, with
one forward-error log line per dropped message. -/
theorem c2_connecting_inbound_dropped (cfg : Config) (msgs : List Frame) :
    validTrace cfg (msgs.map Ev.clientMsg ++ [Ev.aiOpen]) = true
    ∧ run cfg (msgs.map Ev.clientMsg ++ [Ev.aiOpen])
        = { wsAgentInit with
              ai := { state := ReadyState.opened, sent := [Frame.text (sessionUpdate cfg)] }
              kaAi := true
              configSends := 1
              errLog := List.replicate msgs.length clientFwdErr } := by
  have h := connecting_clientMsgs_dropped cfg msgs wsAgentInit rfl rfl
  refine ⟨h.2, ?_⟩
  show runFrom cfg wsAgentInit (msgs.map Ev.clientMsg ++ [Ev.aiOpen]) = _
  rw [runFrom_append, h.1]
  simp [runFrom, stepEv, wsAgentInit]

/-- Claim C3: on every deliverable trace that has reached quiescence (all
initiated close handshakes finished, every errored leg has emitted its
mandatory close event), any Close or Error event on either leg leads to both
legs closed, both keepalive timers stopped, and each side's teardown call on
its peer performed exactly once; independently, each peer-close call happens
at most once, so repeated or near-simultaneous close signals never re-trigger
teardown. -/
theorem c3_close_correlation (cfg : Config) (t : List Ev)
    (hv : validTrace cfg t = true) (hq : quiescent cfg t = true) :
    ((t.any Ev.isCloseOrError = true) →
        (run cfg t).client.state = ReadyState.closed
        ∧ (run cfg t).ai.state = ReadyState.closed
        ∧ (run cfg t).kaClient = false
        ∧ (run cfg t).kaAi = false
        ∧ (run cfg t).aiCloseCalls = 1
        ∧ (run cfg t).clientCloseCalls = 1)
    ∧ (run cfg t).aiCloseCalls ≤ 1
    ∧ (run cfg t).clientCloseCalls ≤ 1 := by
  have hq' := hq
  simp only [quiescent, Bool.and_eq_true, Bool.or_eq_true, Bool.not_eq_true',
    decide_eq_true_eq] at hq'
  obtain ⟨⟨⟨hqc, hqa⟩, hqe1⟩, hqe2⟩ := hq'
  have heqA : (run cfg t).aiCloseCalls = t.countP Ev.isClientClose := by
    simpa [run, wsAgentInit] using aiCloseCalls_runFrom cfg t wsAgentInit
  have heqC : (run cfg t).clientCloseCalls = t.countP Ev.isAiClose := by
    simpa [run, wsAgentInit] using clientCloseCalls_runFrom cfg t wsAgentInit
  have fromClientClosed : (run cfg t).client.state = ReadyState.closed →
      (run cfg t).client.state = ReadyState.closed
      ∧ (run cfg t).ai.state = ReadyState.closed
      ∧ (run cfg t).kaClient = false
      ∧ (run cfg t).kaAi = false
      ∧ (run cfg t).aiCloseCalls = 1
      ∧ (run cfg t).clientCloseCalls = 1 := by
    intro hcl
    obtain ⟨c, hm⟩ := final_client_closed_mem cfg t hcl
    obtain ⟨hka, hkAi, hdown⟩ := mem_clientClose_teardown cfg hm hv
    have hai : (run cfg t).ai.state = ReadyState.closed := by
      rcases hdown with h | h
      · exact absurd h hqa
      · exact h
    obtain ⟨c2, hm2⟩ := final_ai_closed_mem cfg t hai
    have hacc : (run cfg t).aiCloseCalls = 1 := by
      have hle := countP_clientClose_le_one cfg t hv
      have hpos : 0 < t.countP Ev.isClientClose := List.countP_pos_iff.mpr ⟨_, hm, rfl⟩
      omega
    have hccc : (run cfg t).clientCloseCalls = 1 := by
      have hle := countP_aiClose_le_one cfg t hv
      have hpos : 0 < t.countP Ev.isAiClose := List.countP_pos_iff.mpr ⟨_, hm2, rfl⟩
      omega
    exact ⟨hcl, hai, hka, hkAi, hacc, hccc⟩
  refine ⟨?_, ?_, ?_⟩
  · intro htr
    rw [List.any_eq_true] at htr
    obtain ⟨e, hme, hpe⟩ := htr
    cases e with
    | clientMsg f => simp [Ev.isCloseOrError] at hpe
    | clientClose c => exact fromClientClosed (mem_clientClose_closed cfg hme)
    | clientError =>
        have hflag := mem_clientError_flag cfg hme
        rcases hqe1 with h | h
        · rw [hflag] at h; simp at h
        · exact fromClientClosed h
    | aiOpen => simp [Ev.isCloseOrError] at hpe
    | aiMsg f => simp [Ev.isCloseOrError] at hpe
    | aiClose c =>
        obtain ⟨hdown, _, _⟩ := mem_aiClose_teardown cfg hme hv
        have hcl : (run cfg t).client.state = ReadyState.closed := by
          rcases hdown with h | h
          · exact absurd h hqc
          · exact h
        exact fromClientClosed hcl
    | aiError =>
        have hflag := mem_aiError_flag cfg hme
        rcases hqe2 with h | h
        · rw [hflag] at h; simp at h
        · obtain ⟨c2, hm2⟩ := final_ai_closed_mem cfg t h
          obtain ⟨hdown, _, _⟩ := mem_aiClose_teardown cfg hm2 hv
          have hcl : (run cfg t).client.state = ReadyState.closed := by
            rcases hdown with h' | h'
            · exact absurd h' hqc
            · exact h'
          exact fromClientClosed hcl
    | tickClient => simp [Ev.isCloseOrError] at hpe
    | tickAi => simp [Ev.isCloseOrError] at hpe
  · rw [heqA]; exact countP_clientClose_le_one cfg t hv
  · rw [heqC]; exact countP_aiClose_le_one cfg t hv

/-- Witness for C3: a session that fully tears down (open, client close,
AI close) ends with both legs closed, both timers stopped, and exactly one
peer-close call on each side. -/
theorem c3_close_correlation_spot :
    validTrace defaultConfig c3Trace = true
    ∧ quiescent defaultConfig c3Trace = true
    ∧ ((run defaultConfig c3Trace).client.state = ReadyState.closed
        ∧ (run defaultConfig c3Trace).ai.state = ReadyState.closed
        ∧ (run defaultConfig c3Trace).kaClient = false
        ∧ (run defaultConfig c3Trace).kaAi = false
        ∧ (run defaultConfig c3Trace).aiCloseCalls = 1
        ∧ (run defaultConfig c3Trace).clientCloseCalls = 1) :=
  ⟨by decide, by decide,
    (c3_close_correlation defaultConfig c3Trace (by decide) (by decide)).1 (by decide)⟩

/-- Claim C7: on every deliverable trace, a forward attempted on an
already-closed leg is logged and does not crash the session — the handler
appends exactly one forward-error log line and changes nothing else — and the
closed leg's close path is already accounted for: its close handler has run,
so its peer is shut down and its keepalive cleared (for the client leg, both
keepalives). -/
theorem c7_forward_failed_swallowed (cfg : Config) (t : List Ev) (f : Frame)
    (hv : validTrace cfg t = true) :
    ((run cfg t).ai.state = ReadyState.closed →
        stepEv cfg (run cfg t) (Ev.clientMsg f)
            = { run cfg t with errLog := (run cfg t).errLog ++ [clientFwdErr] }
        ∧ ((run cfg t).client.state = ReadyState.closing
            ∨ (run cfg t).client.state = ReadyState.closed)
        ∧ (run cfg t).kaAi = false)
    ∧ ((run cfg t).client.state = ReadyState.closed →
        stepEv cfg (run cfg t) (Ev.aiMsg f)
            = { run cfg t with errLog := (run cfg t).errLog ++ [aiFwdErr] }
        ∧ ((run cfg t).ai.state = ReadyState.closing
            ∨ (run cfg t).ai.state = ReadyState.closed)
        ∧ (run cfg t).kaClient = false ∧ (run cfg t).kaAi = false) := by
  constructor
  · intro hai
    obtain ⟨c, hm⟩ := final_ai_closed_mem cfg t hai
    obtain ⟨hdown, hkAi, _⟩ := mem_aiClose_teardown cfg hm hv
    refine ⟨?_, hdown, hkAi⟩
    cases f with
    | text str => simp [stepEv, hai]
    | bin bytes => simp [stepEv, hai]
  · intro hcl
    obtain ⟨c, hm⟩ := final_client_closed_mem cfg t hcl
    obtain ⟨hka, hkAi, hdown⟩ := mem_clientClose_teardown cfg hm hv
    refine ⟨?_, hdown, hka, hkAi⟩
    simp [stepEv, hcl]

/-- Witness for C7: after the outbound leg closed, a further inbound message
only adds the forward-error log line while the teardown outcome is already in
force. -/
theorem c7_forward_failed_spot :
    (run defaultConfig c7Trace).ai.state = ReadyState.closed
    ∧ (stepEv defaultConfig (run defaultConfig c7Trace) (Ev.clientMsg (Frame.text "x"))
          = { run defaultConfig c7Trace with
                errLog := (run defaultConfig c7Trace).errLog ++ [clientFwdErr] }
        ∧ ((run defaultConfig c7Trace).client.state = ReadyState.closing
            ∨ (run defaultConfig c7Trace).client.state = ReadyState.closed)
        ∧ (run defaultConfig c7Trace).kaAi = false) :=
  ⟨by decide,
    (c7_forward_failed_swallowed defaultConfig c7Trace (Frame.text "x") (by decide)).1
      (by decide)⟩

/-- Counterexample to claim C8: in the fresh session the client keepalive
interval is already scheduled although the outbound leg has not opened and no
configuration message has been sent — the timers are not both started on the
Open event. -/
theorem c8_keepalive_preopen_refuted :
    (run defaultConfig []).kaClient = true
    ∧ (run defaultConfig []).ai.state = ReadyState.connecting
    ∧ (run defaultConfig []).configSends = 0 :=
  ⟨by decide, by decide, by decide⟩

/-- Claim C8 as amended: there are two independent per-leg keepalive tasks at
the fixed 25000 ms interval, each sending a payload-less transport ping whose
failure is swallowed (a tick changes no connection state); but the client-leg
task starts at session construction, before the outbound leg opens, and only
the AI-leg task starts on the Open event (it is scheduled exactly by the open
handler); there is no pending-queue flush. -/
theorem c8_keepalive_schedule (cfg : Config) (t : List Ev) (s : Session) :
    kaIntervalMs = 25000
    ∧ wsAgentInit.kaClient = true
    ∧ wsAgentInit.kaAi = false
    ∧ wsAgentInit.ai.state = ReadyState.connecting
    ∧ ((run cfg t).kaAi = true → Ev.aiOpen ∈ t)
    ∧ stepEv cfg s Ev.tickClient
        = (if s.client.state = ReadyState.opened
           then { s with clientPings := s.clientPings + 1 } else s)
    ∧ stepEv cfg s Ev.tickAi
        = (if s.ai.state = ReadyState.opened
           then { s with aiPings := s.aiPings + 1 } else s) := by
  refine ⟨rfl, rfl, rfl, rfl, ?_, rfl, rfl⟩
  intro h
  rcases kaAi_origin cfg t wsAgentInit h with h' | h'
  · simp [wsAgentInit] at h'
  · exact h'
